import Mathlib

/-
  Verification development for osgEarth ElevationMorph
  (src/src/osgEarthUtil/ElevationMorph.cpp).

  The terrain effect installs a vertex shader function and two uniforms
  into the terrain engine state set, and removes them on teardown. The
  shader morphs tile vertices between an old and a new elevation
  sampling, driven by camera distance and elapsed time.

  GLSL float arithmetic is modelled over the rationals; GLSL clamp of
  x to the interval from lo to hi is min (max x lo) hi.
-/

namespace ElevationMorphSpec

/-! ## Shader-side model (the string constant vs, lines 45-71) -/

/-- GLSL clamp: min (max x lo) hi. -/
def glslClamp (x lo hi : ℚ) : ℚ := min (max x lo) hi

/-- A three component vector of rationals (GLSL vec3). -/
structure Vec3 where
  x : ℚ
  y : ℚ
  z : ℚ
deriving DecidableEq, Repr

/-- A four component vector of rationals (GLSL vec4). -/
structure Vec4 where
  x : ℚ
  y : ℚ
  z : ℚ
  w : ℚ
deriving DecidableEq, Repr

/-- The uniform inputs read by the shader function oe_morph_vertex. -/
structure MorphUniforms where
  /-- uniform float oe_min_tile_range_factor -/
  minTileRangeFactor : ℚ
  /-- uniform vec4 oe_tile_key, component w: the tile radius -/
  tileKeyW : ℚ
  /-- uniform float osg_FrameTime -/
  frameTime : ℚ
  /-- uniform float oe_tile_birthtime -/
  tileBirthTime : ℚ
  /-- uniform float oe_morph_delay -/
  morphDelay : ℚ
  /-- uniform float oe_morph_duration -/
  morphDuration : ℚ
deriving DecidableEq, Repr

/-- The per vertex inputs of oe_morph_vertex. The field viewDist stands
for length(VertexVIEW.xyz/VertexVIEW.w), the camera to vertex distance
computed on line 59 and line 61 from gl_ModelViewMatrix; the claims are
stated in terms of this distance, so the embedding takes it as an input
rather than modelling the square root. -/
structure VertexInputs where
  /-- inout vec4 VertexMODEL -/
  vertexMODEL : Vec4
  /-- camera to vertex distance length(VertexVIEW.xyz/VertexVIEW.w) -/
  viewDist : ℚ
  /-- attribute vec4 oe_terrain_attr: xyz is the up vector, w the new elevation -/
  terrainAttr : Vec4
  /-- attribute vec4 oe_terrain_attr2: w is the old elevation -/
  terrainAttr2 : Vec4
deriving DecidableEq, Repr

/-- Line by line transliteration of the shader function oe_morph_vertex
(lines 55-71 of ElevationMorph.cpp), returning the updated VertexMODEL. -/
def oe_morph_vertex (u : MorphUniforms) (inp : VertexInputs) : Vec4 :=
  let far : ℚ := u.minTileRangeFactor
  let near : ℚ := far * (85/100)
  let radius : ℚ := u.tileKeyW
  let d : ℚ := inp.viewDist - radius
  let a : ℚ := glslClamp (d / radius) near far
  let rDist : ℚ := (a - near) / (far - near)
  let rTime : ℚ :=
    1 - glslClamp (u.frameTime - (u.tileBirthTime + u.morphDelay)) 0 u.morphDuration
          / u.morphDuration
  let r : ℚ := max rDist rTime
  let upVector : Vec3 := ⟨inp.terrainAttr.x, inp.terrainAttr.y, inp.terrainAttr.z⟩
  let elev : ℚ := inp.terrainAttr.w
  let elevOld : ℚ := inp.terrainAttr2.w
  let offset : Vec3 :=
    ⟨upVector.x * (r * (elevOld - elev)),
     upVector.y * (r * (elevOld - elev)),
     upVector.z * (r * (elevOld - elev))⟩
  ⟨inp.vertexMODEL.x + offset.x / inp.vertexMODEL.w,
   inp.vertexMODEL.y + offset.y / inp.vertexMODEL.w,
   inp.vertexMODEL.z + offset.z / inp.vertexMODEL.w,
   inp.vertexMODEL.w + 0⟩

/-- The distance derived morph term of line 63, as a function of the
camera to vertex distance. -/
def r_dist (u : MorphUniforms) (viewDist : ℚ) : ℚ :=
  let far : ℚ := u.minTileRangeFactor
  let near : ℚ := far * (85/100)
  let radius : ℚ := u.tileKeyW
  let d : ℚ := viewDist - radius
  let a : ℚ := glslClamp (d / radius) near far
  (a - near) / (far - near)

/-- The time derived morph term of line 64. -/
def r_time (u : MorphUniforms) : ℚ :=
  1 - glslClamp (u.frameTime - (u.tileBirthTime + u.morphDelay)) 0 u.morphDuration
        / u.morphDuration

/-- The morph ratio of line 65: the maximum of the distance term and the
time term. -/
def morphR (u : MorphUniforms) (viewDist : ℚ) : ℚ :=
  max (r_dist u viewDist) (r_time u)

/-- Displacement of the model space vertex by a given morph ratio
(lines 66-70): the xyz components move by upVector * r * (elevOld - elev)
divided by the w component, and w is unchanged. -/
def displaceVertex (inp : VertexInputs) (r : ℚ) : Vec4 :=
  let upVector : Vec3 := ⟨inp.terrainAttr.x, inp.terrainAttr.y, inp.terrainAttr.z⟩
  let elev : ℚ := inp.terrainAttr.w
  let elevOld : ℚ := inp.terrainAttr2.w
  ⟨inp.vertexMODEL.x + upVector.x * (r * (elevOld - elev)) / inp.vertexMODEL.w,
   inp.vertexMODEL.y + upVector.y * (r * (elevOld - elev)) / inp.vertexMODEL.w,
   inp.vertexMODEL.z + upVector.z * (r * (elevOld - elev)) / inp.vertexMODEL.w,
   inp.vertexMODEL.w + 0⟩

/-! ## Host state model (osg StateSet, osg Uniform, osgEarth VirtualProgram) -/

/-- Shader composition locations of osgEarth ShaderComp. -/
inductive ShaderLoc where
  | vertexModel
  | vertexView
  | vertexClip
  | fragmentColoring
  | fragmentLighting
deriving DecidableEq, Repr

/-- Modelled from the spec: an osg float uniform, a named parameter of the
shared rendering state (the osg Uniform class is not under src). -/
structure Uniform where
  name : String
  value : ℚ
deriving DecidableEq, Repr

/-- Modelled from the spec: the osgEarth VirtualProgram state attribute,
holding the shader functions installed by shader composition; functions
are keyed by name (VirtualProgram is not under src). -/
structure VirtualProgram where
  functions : List (String × String × ShaderLoc)
deriving DecidableEq, Repr

/-- Modelled from the spec: an osg StateSet, the shared rendering state of
the host: its named uniforms, its optional VirtualProgram attribute, and
its remaining attributes, untouched by this effect (StateSet is not under
src). -/
structure StateSet where
  uniforms : List Uniform
  vp : Option VirtualProgram
  otherAttrs : List String
deriving DecidableEq, Repr

/-- Modelled from the spec: the part of the osgEarth TerrainEngineNode the
effect touches: its optional state set (TerrainEngineNode is not under
src). -/
structure Engine where
  stateset : Option StateSet
deriving DecidableEq, Repr

/-- Modelled from the spec: StateSet addUniform stores the uniform under
its name, replacing any uniform already stored under that name. -/
def StateSet.addUniform (ss : StateSet) (u : Uniform) : StateSet :=
  { ss with uniforms := u :: ss.uniforms.filter (fun v => v.name != u.name) }

/-- Modelled from the spec: StateSet removeUniform erases the uniform
stored under the name of its argument, when present. -/
def StateSet.removeUniform (ss : StateSet) (u : Uniform) : StateSet :=
  { ss with uniforms := ss.uniforms.filter (fun v => v.name != u.name) }

/-- Look up the value of the uniform stored under a name. -/
def StateSet.findUniform (ss : StateSet) (n : String) : Option ℚ :=
  (ss.uniforms.find? (fun v => v.name == n)).map Uniform.value

/-- Modelled from the spec: VirtualProgram getOrCreate returns the state
set VirtualProgram attribute, creating an empty one when absent. -/
def VirtualProgram.getOrCreate (ss : StateSet) : VirtualProgram :=
  ss.vp.getD ⟨[]⟩

/-- Modelled from the spec: VirtualProgram setFunction installs a shader
function under its name at a location, replacing any function of that
name. -/
def VirtualProgram.setFunction (vp : VirtualProgram) (n src : String)
    (loc : ShaderLoc) : VirtualProgram :=
  ⟨(n, src, loc) :: vp.functions.filter (fun f => f.1 != n)⟩

/-- Modelled from the spec: VirtualProgram removeShader removes the shader
function of the given name, when present. -/
def VirtualProgram.removeShader (vp : VirtualProgram) (n : String) :
    VirtualProgram :=
  ⟨vp.functions.filter (fun f => f.1 != n)⟩

/-- Look up the source and location of the shader function of a name. -/
def VirtualProgram.findFunction (vp : VirtualProgram) (n : String) :
    Option (String × ShaderLoc) :=
  (vp.functions.find? (fun f => f.1 == n)).map Prod.snd

/-- Modelled from the spec: getOrCreateStateSet returns the engine state
set, creating an empty one when the engine has none. -/
def Engine.getOrCreateStateSet (e : Engine) : StateSet :=
  e.stateset.getD ⟨[], none, []⟩

/-! ## The ElevationMorph effect (lines 75-144) -/

/-- Name of the delay uniform. -/
def delayUniformName : String := "oe_morph_delay"

/-- Name of the duration uniform. -/
def durationUniformName : String := "oe_morph_duration"

/-- Name of the installed shader function. -/
def morphFunctionName : String := "oe_morph_vertex"

/-- Modelled from the spec: osg clampAbove returns its first argument
clamped to be at least its second. -/
def clampAbove (v minimum : ℚ) : ℚ := max v minimum

/-- The ElevationMorph effect state: the delay and duration members and
the values of the two uniform objects it owns (their names are fixed at
construction and never change). -/
structure ElevationMorph where
  _delay : ℚ
  _duration : ℚ
  _delayUniformValue : ℚ
  _durationUniformValue : ℚ
deriving DecidableEq, Repr

/-- The delay uniform object of the effect. -/
def ElevationMorph.delayUniform (m : ElevationMorph) : Uniform :=
  ⟨delayUniformName, m._delayUniformValue⟩

/-- The duration uniform object of the effect. -/
def ElevationMorph.durationUniform (m : ElevationMorph) : Uniform :=
  ⟨durationUniformName, m._durationUniformValue⟩

/-- The constructor (lines 75-85): delay 0, duration 0.25, and both
uniforms set to the member values. -/
def ElevationMorph.init : ElevationMorph :=
  { _delay := 0
    _duration := 25/100
    _delayUniformValue := 0
    _durationUniformValue := 25/100 }

/-- setDelay (lines 94-99): clamp the argument above 0, store it and
update the delay uniform. -/
def ElevationMorph.setDelay (m : ElevationMorph) (delay : ℚ) : ElevationMorph :=
  let c := clampAbove delay 0
  { m with _delay := c, _delayUniformValue := c }

/-- setDuration (lines 102-107): clamp the argument above 0, store it and
update the duration uniform. -/
def ElevationMorph.setDuration (m : ElevationMorph) (duration : ℚ) : ElevationMorph :=
  let c := clampAbove duration 0
  { m with _duration := c, _durationUniformValue := c }

/-- The shader source string vs (lines 45-71). -/
def vsSource : String :=
  "attribute vec4 oe_terrain_attr; \n" ++
  "attribute vec4 oe_terrain_attr2; \n" ++
  "uniform float oe_min_tile_range_factor; \n" ++
  "uniform vec4 oe_tile_key; \n" ++
  "uniform float osg_FrameTime; \n" ++
  "uniform float oe_tile_birthtime; \n" ++
  "uniform float oe_morph_delay; \n" ++
  "uniform float oe_morph_duration; \n" ++
  "void oe_morph_vertex(inout vec4 VertexMODEL) \n" ++
  "\x7b \n" ++
  "    float far        = oe_min_tile_range_factor; \n" ++
  "    float near       = far * 0.85; \n" ++
  "    vec4  VertexVIEW = gl_ModelViewMatrix * VertexMODEL; \n" ++
  "    float radius     = oe_tile_key.w; \n" ++
  "    float d          = length(VertexVIEW.xyz/VertexVIEW.w) - radius; \n" ++
  "    float a          = clamp( d/radius, near, far ); \n" ++
  "    float r_dist     = ((a-near)/(far-near)); \n" ++
  "    float r_time     = 1.0 - clamp(osg_FrameTime-(oe_tile_birthtime+oe_morph_delay), 0.0, oe_morph_duration)/oe_morph_duration; \n" ++
  "    float r          = max(r_dist, r_time); \n" ++
  "    vec3  upVector   = oe_terrain_attr.xyz; \n" ++
  "    float elev       = oe_terrain_attr.w; \n" ++
  "    float elevOld    = oe_terrain_attr2.w; \n" ++
  "    vec3  offset     = upVector * r * (elevOld - elev); \n" ++
  "    VertexMODEL      = VertexMODEL + vec4(offset/VertexMODEL.w, 0.0); \n" ++
  "\x7d \n"

/-- onInstall (lines 110-123): when the engine is non null, add the two
uniforms to its state set (created when absent) and install the shader
function oe_morph_vertex at the vertex model location into the state set
VirtualProgram (created when absent). -/
def ElevationMorph.onInstall (m : ElevationMorph) (engine : Option Engine) :
    Option Engine :=
  match engine with
  | none => none
  | some e =>
      let ss0 := e.getOrCreateStateSet
      let ss1 := ss0.addUniform m.delayUniform
      let ss2 := ss1.addUniform m.durationUniform
      let vp := VirtualProgram.getOrCreate ss2
      let vp1 := vp.setFunction morphFunctionName vsSource ShaderLoc.vertexModel
      some { stateset := some { ss2 with vp := some vp1 } }

/-- onUninstall (lines 126-144): when the engine is non null and has a
state set, remove the two uniforms; when the state set has a
VirtualProgram, remove the shader function oe_morph_vertex. -/
def ElevationMorph.onUninstall (m : ElevationMorph) (engine : Option Engine) :
    Option Engine :=
  match engine with
  | none => none
  | some e =>
      match e.stateset with
      | none => some e
      | some ss =>
          let ss1 := ss.removeUniform m.delayUniform
          let ss2 := ss1.removeUniform m.durationUniform
          match ss2.vp with
          | none => some { stateset := some ss2 }
          | some vp =>
              some { stateset := some { ss2 with vp := some (vp.removeShader morphFunctionName) } }

/-- The operations of the effect API besides install and uninstall. -/
inductive MorphOp where
  | setDelayOp : ℚ → MorphOp
  | setDurationOp : ℚ → MorphOp
deriving DecidableEq, Repr

/-- Apply an effect operation to the effect state (no engine state is
involved, matching the C++ setters, which touch only the members and the
two uniform objects owned by the effect). -/
def applyOp (m : ElevationMorph) : MorphOp → ElevationMorph
  | MorphOp.setDelayOp v => m.setDelay v
  | MorphOp.setDurationOp v => m.setDuration v

/-- An effect operation acting on the combined world of effect state and
host engine state. -/
def applyWorldOp (w : ElevationMorph × Option Engine) (op : MorphOp) :
    ElevationMorph × Option Engine :=
  (applyOp w.1 op, w.2)

/-- The invariant of the effect state: both members are non negative and
each uniform value equals its member. -/
def morphInvariant (m : ElevationMorph) : Prop :=
  0 ≤ m._delay ∧ 0 ≤ m._duration ∧
  m._delayUniformValue = m._delay ∧ m._durationUniformValue = m._duration

/-! ## Helper lemmas -/

/-- The monolithic shader embedding factors through the morph ratio. -/
theorem oe_morph_vertex_eq (u : MorphUniforms) (inp : VertexInputs) :
    oe_morph_vertex u inp = displaceVertex inp (morphR u inp.viewDist) := rfl

/-! ## C3: the morph is a linear interpolation between new and old elevation -/

/-- C3. For every input vertex, oe_morph_vertex displaces the model space
vertex by upVector * r * (elevOld - elev) / w in each coordinate, keeps w,
and is the linear interpolation between the vertex at the new elevation
(ratio 0: unchanged vertex) and the vertex at the old elevation (ratio 1:
displaced by upVector * (elevOld - elev) / w). -/
theorem morph_vertex_is_lerp (u : MorphUniforms) (inp : VertexInputs) :
    ((oe_morph_vertex u inp).w = inp.vertexMODEL.w) ∧
    ((oe_morph_vertex u inp).x = inp.vertexMODEL.x
        + inp.terrainAttr.x * morphR u inp.viewDist
          * (inp.terrainAttr2.w - inp.terrainAttr.w) / inp.vertexMODEL.w) ∧
    ((oe_morph_vertex u inp).y = inp.vertexMODEL.y
        + inp.terrainAttr.y * morphR u inp.viewDist
          * (inp.terrainAttr2.w - inp.terrainAttr.w) / inp.vertexMODEL.w) ∧
    ((oe_morph_vertex u inp).z = inp.vertexMODEL.z
        + inp.terrainAttr.z * morphR u inp.viewDist
          * (inp.terrainAttr2.w - inp.terrainAttr.w) / inp.vertexMODEL.w) ∧
    ((oe_morph_vertex u inp).x
        = (1 - morphR u inp.viewDist) * inp.vertexMODEL.x
          + morphR u inp.viewDist * (inp.vertexMODEL.x
              + inp.terrainAttr.x * (inp.terrainAttr2.w - inp.terrainAttr.w)
                / inp.vertexMODEL.w)) ∧
    (morphR u inp.viewDist = 0 → oe_morph_vertex u inp = inp.vertexMODEL) ∧
    (morphR u inp.viewDist = 1 →
      (oe_morph_vertex u inp).x = inp.vertexMODEL.x
          + inp.terrainAttr.x * (inp.terrainAttr2.w - inp.terrainAttr.w)
            / inp.vertexMODEL.w ∧
      (oe_morph_vertex u inp).y = inp.vertexMODEL.y
          + inp.terrainAttr.y * (inp.terrainAttr2.w - inp.terrainAttr.w)
            / inp.vertexMODEL.w ∧
      (oe_morph_vertex u inp).z = inp.vertexMODEL.z
          + inp.terrainAttr.z * (inp.terrainAttr2.w - inp.terrainAttr.w)
            / inp.vertexMODEL.w) := by
  obtain ⟨⟨vx, vy, vz, vw⟩, vd, ⟨ax, ay, az, aw⟩, ⟨bx, by_, bz, bw⟩⟩ := inp
  rw [oe_morph_vertex_eq]
  refine ⟨by simp [displaceVertex], ?_, ?_, ?_, ?_, ?_, ?_⟩
  · simp only [displaceVertex]; ring
  · simp only [displaceVertex]; ring
  · simp only [displaceVertex]; ring
  · simp only [displaceVertex]; ring
  · intro h; rw [h]; simp [displaceVertex]
  · intro h; rw [h]; refine ⟨?_, ?_, ?_⟩ <;> (simp only [displaceVertex]; ring)

/-- Witness for C3: a concrete vertex evaluated at morph ratio 0 stays at
the new elevation, and at morph ratio 1 carries the old elevation. -/
theorem morph_vertex_is_lerp_witness :
    oe_morph_vertex ⟨1, 1, 2, 0, 0, 1⟩ ⟨⟨1, 2, 3, 1⟩, 1, ⟨0, 0, 1, 5⟩, ⟨0, 0, 0, 7⟩⟩
        = ⟨1, 2, 3, 1⟩ ∧
    (oe_morph_vertex ⟨1, 1, 0, 0, 0, 1⟩ ⟨⟨1, 2, 3, 1⟩, 1, ⟨0, 0, 1, 5⟩, ⟨0, 0, 0, 7⟩⟩).z
        = 5 := by
  constructor
  · exact (morph_vertex_is_lerp ⟨1, 1, 2, 0, 0, 1⟩
      ⟨⟨1, 2, 3, 1⟩, 1, ⟨0, 0, 1, 5⟩, ⟨0, 0, 0, 7⟩⟩).2.2.2.2.2.1
      (by norm_num [morphR, r_dist, r_time, glslClamp, max_def, min_def])
  · have h := (morph_vertex_is_lerp ⟨1, 1, 0, 0, 0, 1⟩
      ⟨⟨1, 2, 3, 1⟩, 1, ⟨0, 0, 1, 5⟩, ⟨0, 0, 0, 7⟩⟩).2.2.2.2.2.2
      (by norm_num [morphR, r_dist, r_time, glslClamp, max_def, min_def])
    rw [h.2.2]; norm_num

/-! ## C4: the applied morph ratio is the max of the distance and time terms -/

/-- C4. For every input vertex and frame time, the vertex produced by
oe_morph_vertex is the displacement by the ratio max r_dist r_time, where
r_dist depends on the camera to vertex distance and r_time on the frame
time minus the tile birth time plus the configured delay. -/
theorem morph_ratio_is_max (u : MorphUniforms) (inp : VertexInputs) :
    oe_morph_vertex u inp
      = displaceVertex inp (max (r_dist u inp.viewDist) (r_time u)) ∧
    r_time u = 1 - glslClamp (u.frameTime - (u.tileBirthTime + u.morphDelay))
        0 u.morphDuration / u.morphDuration :=
  ⟨oe_morph_vertex_eq u inp, rfl⟩

/-! ## Monotonicity and bounds of the morph terms -/

/-- When the tile range factor is negative the clamp interval is inverted
and the distance term is constantly 1. -/
lemma r_dist_of_far_neg (u : MorphUniforms) (vd : ℚ)
    (h : u.minTileRangeFactor < 0) : r_dist u vd = 1 := by
  have hne : u.minTileRangeFactor - u.minTileRangeFactor * (85/100) ≠ 0 := by
    intro hc; nlinarith
  have hlt : u.minTileRangeFactor < u.minTileRangeFactor * (85/100) := by nlinarith
  simp only [r_dist, glslClamp]
  rw [min_eq_right (le_trans hlt.le (le_max_right _ _))]
  rw [div_self hne]

/-- When the tile range factor is zero the distance term is constantly 0. -/
lemma r_dist_of_far_zero (u : MorphUniforms) (vd : ℚ)
    (h : u.minTileRangeFactor = 0) : r_dist u vd = 0 := by
  simp only [r_dist, glslClamp]
  rw [h]
  simp

/-- The distance term always lies between 0 and 1. -/
lemma r_dist_bounds (u : MorphUniforms) (vd : ℚ) :
    0 ≤ r_dist u vd ∧ r_dist u vd ≤ 1 := by
  rcases lt_trichotomy u.minTileRangeFactor 0 with hf | hf | hf
  · rw [r_dist_of_far_neg u vd hf]; norm_num
  · rw [r_dist_of_far_zero u vd hf]; norm_num
  · have hnf : u.minTileRangeFactor * (85/100) < u.minTileRangeFactor := by nlinarith
    have hpos : 0 < u.minTileRangeFactor - u.minTileRangeFactor * (85/100) := by linarith
    simp only [r_dist, glslClamp]
    constructor
    · apply div_nonneg _ hpos.le
      have : u.minTileRangeFactor * (85/100)
          ≤ min (max ((vd - u.tileKeyW) / u.tileKeyW) (u.minTileRangeFactor * (85/100)))
              u.minTileRangeFactor :=
        le_min (le_max_right _ _) hnf.le
      linarith
    · rw [div_le_one hpos]
      have : min (max ((vd - u.tileKeyW) / u.tileKeyW) (u.minTileRangeFactor * (85/100)))
          u.minTileRangeFactor ≤ u.minTileRangeFactor := min_le_right _ _
      linarith

/-- For a positive tile radius the distance term is monotone non
decreasing in the camera to vertex distance. -/
lemma r_dist_mono (u : MorphUniforms) (hrad : 0 < u.tileKeyW)
    {d₁ d₂ : ℚ} (h : d₁ ≤ d₂) : r_dist u d₁ ≤ r_dist u d₂ := by
  rcases lt_trichotomy u.minTileRangeFactor 0 with hf | hf | hf
  · rw [r_dist_of_far_neg u d₁ hf, r_dist_of_far_neg u d₂ hf]
  · rw [r_dist_of_far_zero u d₁ hf, r_dist_of_far_zero u d₂ hf]
  · have hnf : u.minTileRangeFactor * (85/100) < u.minTileRangeFactor := by nlinarith
    have hpos : 0 < u.minTileRangeFactor - u.minTileRangeFactor * (85/100) := by linarith
    simp only [r_dist, glslClamp]
    have h1 : (d₁ - u.tileKeyW) / u.tileKeyW ≤ (d₂ - u.tileKeyW) / u.tileKeyW :=
      div_le_div_of_nonneg_right (by linarith) hrad.le
    have h2 : min (max ((d₁ - u.tileKeyW) / u.tileKeyW) (u.minTileRangeFactor * (85/100)))
          u.minTileRangeFactor
        ≤ min (max ((d₂ - u.tileKeyW) / u.tileKeyW) (u.minTileRangeFactor * (85/100)))
          u.minTileRangeFactor :=
      min_le_min (max_le_max h1 le_rfl) le_rfl
    exact div_le_div_of_nonneg_right (sub_le_sub_right h2 _) hpos.le

/-- For a positive duration the time term lies between 0 and 1. -/
lemma r_time_bounds (u : MorphUniforms) (hdur : 0 < u.morphDuration) :
    0 ≤ r_time u ∧ r_time u ≤ 1 := by
  simp only [r_time, glslClamp]
  have h0 : 0 ≤ min (max (u.frameTime - (u.tileBirthTime + u.morphDelay)) 0) u.morphDuration :=
    le_min (le_max_right _ _) hdur.le
  have h1 : min (max (u.frameTime - (u.tileBirthTime + u.morphDelay)) 0) u.morphDuration
      ≤ u.morphDuration := min_le_right _ _
  constructor
  · have := (div_le_one hdur).mpr h1; linarith
  · have := div_nonneg h0 hdur.le; linarith

/-- For a positive duration the time term is monotone non increasing in
the frame time. -/
lemma r_time_anti (u : MorphUniforms) (hdur : 0 < u.morphDuration)
    {t₁ t₂ : ℚ} (h : t₁ ≤ t₂) :
    r_time { u with frameTime := t₂ } ≤ r_time { u with frameTime := t₁ } := by
  simp only [r_time, glslClamp]
  apply sub_le_sub_left
  apply div_le_div_of_nonneg_right _ hdur.le
  exact min_le_min (max_le_max (by linarith) le_rfl) le_rfl

/-! ## C5: monotonicity of the morph ratio in distance and time -/

/-- When the tile radius is zero the distance term does not depend on the
camera to vertex distance. -/
lemma r_dist_of_radius_zero (u : MorphUniforms) (vd₁ vd₂ : ℚ)
    (h : u.tileKeyW = 0) : r_dist u vd₁ = r_dist u vd₂ := by
  simp [r_dist, h, div_zero]

/-- For a negative tile radius, a positive range factor and a non
negative camera to vertex distance the clamp bottoms out and the distance
term is 0. -/
lemma r_dist_of_radius_neg_of_nonneg (u : MorphUniforms)
    (hrad : u.tileKeyW < 0) (hfar : 0 < u.minTileRangeFactor)
    (d : ℚ) (hd : 0 ≤ d) : r_dist u d = 0 := by
  have hnear : 0 < u.minTileRangeFactor * (85/100) := by nlinarith
  have hx : (d - u.tileKeyW) / u.tileKeyW < 0 :=
    div_neg_of_pos_of_neg (by linarith) hrad
  simp only [r_dist, glslClamp]
  rw [max_eq_right (le_of_lt (lt_trans hx hnear)),
    min_eq_left (by nlinarith : u.minTileRangeFactor * (85/100) ≤ u.minTileRangeFactor)]
  simp

/-- For non negative camera to vertex distances the distance term is
monotone non decreasing, whatever the fixed radius and range factor. -/
lemma r_dist_mono_of_nonneg (u : MorphUniforms) {d₁ d₂ : ℚ}
    (h0 : 0 ≤ d₁) (h : d₁ ≤ d₂) : r_dist u d₁ ≤ r_dist u d₂ := by
  rcases lt_trichotomy u.tileKeyW 0 with hr | hr | hr
  · rcases lt_trichotomy u.minTileRangeFactor 0 with hf | hf | hf
    · rw [r_dist_of_far_neg u d₁ hf, r_dist_of_far_neg u d₂ hf]
    · rw [r_dist_of_far_zero u d₁ hf, r_dist_of_far_zero u d₂ hf]
    · rw [r_dist_of_radius_neg_of_nonneg u hr hf d₁ h0,
        r_dist_of_radius_neg_of_nonneg u hr hf d₂ (le_trans h0 h)]
  · rw [r_dist_of_radius_zero u d₁ d₂ hr]
  · exact r_dist_mono u hr h

/-- C5. Holding the uniforms and the tile radius fixed, the morph ratio is
monotone non decreasing in the (non negative) camera to vertex distance,
and for a positive duration it is monotone non increasing in the frame
time. -/
theorem morphR_monotone (u : MorphUniforms) (d₁ d₂ t₁ t₂ dv : ℚ)
    (hd₀ : 0 ≤ d₁) (hd : d₁ ≤ d₂) (hdur : 0 < u.morphDuration) (ht : t₁ ≤ t₂) :
    morphR u d₁ ≤ morphR u d₂ ∧
    morphR { u with frameTime := t₂ } dv ≤ morphR { u with frameTime := t₁ } dv :=
  ⟨max_le_max (r_dist_mono_of_nonneg u hd₀ hd) le_rfl,
   max_le_max le_rfl (r_time_anti u hdur ht)⟩

/-- Witness for C5: monotonicity at concrete inputs with radius 1 and
duration 1. -/
theorem morphR_monotone_witness :
    morphR ⟨1, 1, 0, 0, 0, 1⟩ 1 ≤ morphR ⟨1, 1, 0, 0, 0, 1⟩ 2 ∧
    morphR ⟨1, 1, 1, 0, 0, 1⟩ 1 ≤ morphR ⟨1, 1, 0, 0, 0, 1⟩ 1 :=
  morphR_monotone ⟨1, 1, 0, 0, 0, 1⟩ 1 2 0 1 1 (by norm_num) (by norm_num)
    (by norm_num) (by norm_num)

/-! ## C10: the morph ratio stays in the unit interval for positive duration -/

/-- C10. For a positive duration the time term, the distance term and the
applied morph ratio all lie in the unit interval; setDuration does not
enforce this precondition: it accepts 0, storing 0 in the member and in
the duration uniform, under which the divisor of the time term is 0. -/
theorem morph_ratio_bounds (u : MorphUniforms) (dv : ℚ) (m : ElevationMorph)
    (hdur : 0 < u.morphDuration) :
    (0 ≤ r_time u ∧ r_time u ≤ 1) ∧
    (0 ≤ r_dist u dv ∧ r_dist u dv ≤ 1) ∧
    (0 ≤ morphR u dv ∧ morphR u dv ≤ 1) ∧
    ((m.setDuration 0)._duration = 0 ∧ (m.setDuration 0)._durationUniformValue = 0) := by
  have ht := r_time_bounds u hdur
  have hd := r_dist_bounds u dv
  refine ⟨ht, hd, ⟨?_, max_le hd.2 ht.2⟩, ?_, ?_⟩
  · exact le_trans hd.1 (le_max_left _ _)
  · simp [ElevationMorph.setDuration, clampAbove]
  · simp [ElevationMorph.setDuration, clampAbove]

/-- Witness for C10 at duration 1, distance 1 and the freshly constructed
effect. -/
theorem morph_ratio_bounds_witness :
    (0 ≤ morphR ⟨1, 1, 0, 0, 0, 1⟩ 1 ∧ morphR ⟨1, 1, 0, 0, 0, 1⟩ 1 ≤ 1) ∧
    (ElevationMorph.init.setDuration 0)._duration = 0 := by
  have h := morph_ratio_bounds ⟨1, 1, 0, 0, 0, 1⟩ 1 ElevationMorph.init (by norm_num)
  exact ⟨h.2.2.1, h.2.2.2.1⟩

/-! ## List lookup helpers for the state set model -/

lemma find?_filter_imp {α : Type} (l : List α) (p q : α → Bool)
    (h : ∀ x, p x = true → q x = true) :
    (l.filter q).find? p = l.find? p := by
  induction l with
  | nil => rfl
  | cons a t ih =>
    by_cases hp : p a
    · have hq := h a hp
      simp [List.filter_cons, hq, List.find?_cons, hp]
    · by_cases hq : q a
      · simp [List.filter_cons, hq, List.find?_cons, hp, ih]
      · simp [List.filter_cons, hq, List.find?_cons, hp, ih]

lemma find?_filter_not {α : Type} (l : List α) (p q : α → Bool)
    (h : ∀ x, p x = true → q x = false) :
    (l.filter q).find? p = none := by
  induction l with
  | nil => rfl
  | cons a t ih =>
    by_cases hq : q a
    · have hp : p a = false := by
        cases hpa : p a
        · rfl
        · exact absurd (h a hpa) (by simp [hq])
      simp [List.filter_cons, hq, List.find?_cons, hp, ih]
    · simp [List.filter_cons, hq, ih]

lemma filter_eq_self_of_find?_none {α : Type} (l : List α) (p q : α → Bool)
    (hpq : ∀ x, p x = false → q x = true) (h : l.find? p = none) :
    l.filter q = l := by
  rw [List.filter_eq_self]
  intro a ha
  have hpa : p a = false := by
    have := List.find?_eq_none.mp h a ha
    simpa using this
  exact hpq a hpa

lemma findUniform_filter_ne (l : List Uniform) (bad n : String) (h : n ≠ bad) :
    (l.filter (fun v => v.name != bad)).find? (fun v => v.name == n)
      = l.find? (fun v => v.name == n) := by
  apply find?_filter_imp
  intro x hx
  have hx' : x.name = n := by simpa using hx
  simp [hx', h]

lemma findUniform_filter_self (l : List Uniform) (bad : String) :
    (l.filter (fun v => v.name != bad)).find? (fun v => v.name == bad) = none := by
  apply find?_filter_not
  intro x hx
  have hx' : x.name = bad := by simpa using hx
  simp [hx']

lemma findFunction_filter_ne (l : List (String × String × ShaderLoc))
    (bad n : String) (h : n ≠ bad) :
    (l.filter (fun f => f.1 != bad)).find? (fun f => f.1 == n)
      = l.find? (fun f => f.1 == n) := by
  apply find?_filter_imp
  intro x hx
  have hx' : x.1 = n := by simpa using hx
  simp [hx', h]

lemma findFunction_filter_self (l : List (String × String × ShaderLoc))
    (bad : String) :
    (l.filter (fun f => f.1 != bad)).find? (fun f => f.1 == bad) = none := by
  apply find?_filter_not
  intro x hx
  have hx' : x.1 = bad := by simpa using hx
  simp [hx']

/-! ## C1: onInstall adds the two uniforms and the shader function -/

/-- C1. For every non null engine, onInstall stores the delay and duration
uniforms in the engine state set, installs oe_morph_vertex with the shader
source at the vertex model location in the state set VirtualProgram, and
changes nothing else: uniforms of other names, functions of other names
and the remaining attributes keep their previous values. -/
theorem onInstall_installs (m : ElevationMorph) (e : Engine) :
    ∃ ss vp, m.onInstall (some e) = some ⟨some ss⟩ ∧ ss.vp = some vp ∧
      ss.findUniform delayUniformName = some m._delayUniformValue ∧
      ss.findUniform durationUniformName = some m._durationUniformValue ∧
      vp.findFunction morphFunctionName = some (vsSource, ShaderLoc.vertexModel) ∧
      (∀ n, n ≠ delayUniformName → n ≠ durationUniformName →
        ss.findUniform n = e.getOrCreateStateSet.findUniform n) ∧
      (∀ n, n ≠ morphFunctionName →
        vp.findFunction n
          = (VirtualProgram.getOrCreate e.getOrCreateStateSet).findFunction n) ∧
      ss.otherAttrs = e.getOrCreateStateSet.otherAttrs := by
  refine ⟨_, _, rfl, rfl, ?_, ?_, ?_, ?_, ?_, rfl⟩
  · simp [ElevationMorph.onInstall, StateSet.findUniform, StateSet.addUniform,
      ElevationMorph.durationUniform, ElevationMorph.delayUniform,
      delayUniformName, durationUniformName, List.find?_cons]
  · simp [ElevationMorph.onInstall, StateSet.findUniform, StateSet.addUniform,
      ElevationMorph.durationUniform, ElevationMorph.delayUniform,
      delayUniformName, durationUniformName, List.find?_cons]
  · simp [ElevationMorph.onInstall, VirtualProgram.findFunction,
      VirtualProgram.setFunction, List.find?_cons]
  · intro n h1 h2
    simp only [ElevationMorph.onInstall, StateSet.findUniform, StateSet.addUniform,
      ElevationMorph.durationUniform, ElevationMorph.delayUniform]
    rw [List.find?_cons_of_neg _ (by simp [Ne.symm h2]),
      findUniform_filter_ne _ _ _ h2,
      List.find?_cons_of_neg _ (by simp [Ne.symm h1]),
      findUniform_filter_ne _ _ _ h1]
  · intro n h
    simp only [ElevationMorph.onInstall, VirtualProgram.findFunction,
      VirtualProgram.setFunction]
    rw [List.find?_cons_of_neg _ (by simp [Ne.symm h]),
      findFunction_filter_ne _ _ _ h]
    rfl

/-- Witness for C1: installing the fresh effect on an engine whose state
set already carries the uniform tint and the attribute blend. -/
theorem onInstall_installs_witness :
    ∃ ss vp, ElevationMorph.init.onInstall (some ⟨some ⟨[⟨"tint", 5⟩], none, ["blend"]⟩⟩)
        = some ⟨some ss⟩ ∧ ss.vp = some vp ∧
      ss.findUniform delayUniformName = some 0 ∧
      ss.findUniform durationUniformName = some (25/100) ∧
      vp.findFunction morphFunctionName = some (vsSource, ShaderLoc.vertexModel) ∧
      ss.findUniform "tint"
        = (Engine.getOrCreateStateSet ⟨some ⟨[⟨"tint", 5⟩], none, ["blend"]⟩⟩).findUniform "tint" ∧
      vp.findFunction "foo"
        = (VirtualProgram.getOrCreate
            (Engine.getOrCreateStateSet ⟨some ⟨[⟨"tint", 5⟩], none, ["blend"]⟩⟩)).findFunction "foo" := by
  obtain ⟨ss, vp, h1, h2, h3, h4, h5, h6, h7, h8⟩ :=
    onInstall_installs ElevationMorph.init ⟨some ⟨[⟨"tint", 5⟩], none, ["blend"]⟩⟩
  exact ⟨ss, vp, h1, h2, h3, h4, h5, h6 "tint" (by decide) (by decide), h7 "foo" (by decide)⟩

/-! ## C2: install followed by uninstall -/

/-- Counterexample to C2 as stated: on an engine with no state set,
onInstall creates and attaches a state set and a VirtualProgram, and
onUninstall leaves both attached, so the pair of calls does not restore
the engine rendering state to what it was before onInstall. -/
theorem install_uninstall_not_identity :
    ElevationMorph.init.onUninstall (ElevationMorph.init.onInstall (some ⟨none⟩))
      ≠ some (⟨none⟩ : Engine) := by
  simp [ElevationMorph.onInstall, ElevationMorph.onUninstall, Engine.getOrCreateStateSet,
    StateSet.addUniform, StateSet.removeUniform, VirtualProgram.getOrCreate,
    VirtualProgram.setFunction, VirtualProgram.removeShader]

/-- C2 (amended). After onInstall followed by onUninstall the two uniforms
and the shader function are no longer present and every other uniform,
shader function and attribute keeps its pre install value; however the
engine ends with a state set holding a VirtualProgram even when it had
none before, so the state is not restored identically in that case. -/
theorem install_uninstall_removes (m : ElevationMorph) (e : Engine) :
    ∃ ss vp, m.onUninstall (m.onInstall (some e)) = some ⟨some ss⟩ ∧
      ss.vp = some vp ∧
      ss.findUniform delayUniformName = none ∧
      ss.findUniform durationUniformName = none ∧
      vp.findFunction morphFunctionName = none ∧
      (∀ n, n ≠ delayUniformName → n ≠ durationUniformName →
        ss.findUniform n = e.getOrCreateStateSet.findUniform n) ∧
      (∀ n, n ≠ morphFunctionName →
        vp.findFunction n
          = (VirtualProgram.getOrCreate e.getOrCreateStateSet).findFunction n) ∧
      ss.otherAttrs = e.getOrCreateStateSet.otherAttrs := by
  refine ⟨_, _, rfl, rfl, ?_, ?_, ?_, ?_, ?_, rfl⟩
  · simp only [ElevationMorph.onInstall, ElevationMorph.onUninstall,
      StateSet.findUniform, StateSet.addUniform, StateSet.removeUniform,
      ElevationMorph.durationUniform, ElevationMorph.delayUniform]
    rw [findUniform_filter_ne _ _ _ (by decide), findUniform_filter_self]
    rfl
  · simp only [ElevationMorph.onInstall, ElevationMorph.onUninstall,
      StateSet.findUniform, StateSet.addUniform, StateSet.removeUniform,
      ElevationMorph.durationUniform, ElevationMorph.delayUniform]
    rw [findUniform_filter_self]
    rfl
  · simp only [ElevationMorph.onInstall, ElevationMorph.onUninstall,
      VirtualProgram.findFunction, VirtualProgram.setFunction,
      VirtualProgram.removeShader]
    rw [findFunction_filter_self]
    rfl
  · intro n h1 h2
    simp only [ElevationMorph.onInstall, ElevationMorph.onUninstall,
      StateSet.findUniform, StateSet.addUniform, StateSet.removeUniform,
      ElevationMorph.durationUniform, ElevationMorph.delayUniform]
    rw [findUniform_filter_ne _ _ _ h2, findUniform_filter_ne _ _ _ h1,
      List.find?_cons_of_neg _ (by simp [Ne.symm h2]),
      findUniform_filter_ne _ _ _ h2,
      List.find?_cons_of_neg _ (by simp [Ne.symm h1]),
      findUniform_filter_ne _ _ _ h1]
  · intro n h
    simp only [ElevationMorph.onInstall, ElevationMorph.onUninstall,
      VirtualProgram.findFunction, VirtualProgram.setFunction,
      VirtualProgram.removeShader]
    rw [findFunction_filter_ne _ _ _ h,
      List.find?_cons_of_neg _ (by simp [Ne.symm h]),
      findFunction_filter_ne _ _ _ h]
    rfl

/-- Witness for C2 (amended): install then uninstall on an engine with a
tint uniform leaves tint in place and both morph uniforms and the shader
function absent. -/
theorem install_uninstall_removes_witness :
    ∃ ss vp, ElevationMorph.init.onUninstall
        (ElevationMorph.init.onInstall (some ⟨some ⟨[⟨"tint", 5⟩], none, ["blend"]⟩⟩))
        = some ⟨some ss⟩ ∧
      ss.vp = some vp ∧
      ss.findUniform delayUniformName = none ∧
      ss.findUniform durationUniformName = none ∧
      vp.findFunction morphFunctionName = none ∧
      ss.findUniform "tint"
        = (Engine.getOrCreateStateSet ⟨some ⟨[⟨"tint", 5⟩], none, ["blend"]⟩⟩).findUniform "tint" ∧
      vp.findFunction "foo"
        = (VirtualProgram.getOrCreate
            (Engine.getOrCreateStateSet ⟨some ⟨[⟨"tint", 5⟩], none, ["blend"]⟩⟩)).findFunction "foo" := by
  obtain ⟨ss, vp, h1, h2, h3, h4, h5, h6, h7, h8⟩ :=
    install_uninstall_removes ElevationMorph.init ⟨some ⟨[⟨"tint", 5⟩], none, ["blend"]⟩⟩
  exact ⟨ss, vp, h1, h2, h3, h4, h5, h6 "tint" (by decide) (by decide), h7 "foo" (by decide)⟩

/-! ## C6: onUninstall removes only the installed items -/

/-- C6. On an engine with a state set, onUninstall removes the uniforms
stored under the delay and duration names and the shader function
oe_morph_vertex, and nothing else: every uniform of another name, every
shader function of another name, the remaining attributes, and the
presence of the VirtualProgram are unchanged. -/
theorem onUninstall_frame (m : ElevationMorph) (e : Engine) (ss : StateSet)
    (hss : e.stateset = some ss) :
    ∃ ss', m.onUninstall (some e) = some ⟨some ss'⟩ ∧
      ss'.findUniform delayUniformName = none ∧
      ss'.findUniform durationUniformName = none ∧
      (∀ n, n ≠ delayUniformName → n ≠ durationUniformName →
        ss'.findUniform n = ss.findUniform n) ∧
      ss'.otherAttrs = ss.otherAttrs ∧
      (ss.vp = none → ss'.vp = none) ∧
      (∀ vp, ss.vp = some vp → ∃ vp', ss'.vp = some vp' ∧
        vp'.findFunction morphFunctionName = none ∧
        (∀ n, n ≠ morphFunctionName → vp'.findFunction n = vp.findFunction n)) := by
  obtain ⟨sso⟩ := e
  cases hss
  obtain ⟨ul, vpo, attrs⟩ := ss
  cases vpo with
  | none =>
    refine ⟨_, rfl, ?_, ?_, ?_, rfl, fun _ => rfl, ?_⟩
    · simp only [StateSet.findUniform, StateSet.removeUniform,
        ElevationMorph.durationUniform, ElevationMorph.delayUniform]
      rw [findUniform_filter_ne _ _ _ (by decide), findUniform_filter_self]
      rfl
    · simp only [StateSet.findUniform, StateSet.removeUniform,
        ElevationMorph.durationUniform, ElevationMorph.delayUniform]
      rw [findUniform_filter_self]
      rfl
    · intro n h1 h2
      simp only [StateSet.findUniform, StateSet.removeUniform,
        ElevationMorph.durationUniform, ElevationMorph.delayUniform]
      rw [findUniform_filter_ne _ _ _ h2, findUniform_filter_ne _ _ _ h1]
    · intro vp hvp
      exact absurd hvp (by simp)
  | some vp =>
    refine ⟨_, rfl, ?_, ?_, ?_, rfl, by simp, ?_⟩
    · simp only [StateSet.findUniform, StateSet.removeUniform,
        ElevationMorph.durationUniform, ElevationMorph.delayUniform]
      rw [findUniform_filter_ne _ _ _ (by decide), findUniform_filter_self]
      rfl
    · simp only [StateSet.findUniform, StateSet.removeUniform,
        ElevationMorph.durationUniform, ElevationMorph.delayUniform]
      rw [findUniform_filter_self]
      rfl
    · intro n h1 h2
      simp only [StateSet.findUniform, StateSet.removeUniform,
        ElevationMorph.durationUniform, ElevationMorph.delayUniform]
      rw [findUniform_filter_ne _ _ _ h2, findUniform_filter_ne _ _ _ h1]
    · intro vp' hvp'
      refine ⟨_, rfl, ?_, ?_⟩
      · simp only [VirtualProgram.findFunction, VirtualProgram.removeShader]
        rw [findFunction_filter_self]
        rfl
      · intro n h
        have : vp' = vp := by simpa using hvp'.symm
        subst this
        simp only [VirtualProgram.findFunction, VirtualProgram.removeShader]
        rw [findFunction_filter_ne _ _ _ h]

/-- Witness for C6: uninstalling from a state set holding a tint uniform,
a fog shader function and a blend attribute keeps all three. -/
theorem onUninstall_frame_witness :
    ∃ ss', ElevationMorph.init.onUninstall
        (some ⟨some ⟨[⟨"tint", 5⟩], some ⟨[("fog", "srcF", ShaderLoc.fragmentColoring)]⟩, ["blend"]⟩⟩)
        = some ⟨some ss'⟩ ∧
      ss'.findUniform delayUniformName = none ∧
      ss'.findUniform durationUniformName = none ∧
      ss'.findUniform "tint"
        = (StateSet.findUniform ⟨[⟨"tint", 5⟩], some ⟨[("fog", "srcF", ShaderLoc.fragmentColoring)]⟩, ["blend"]⟩ "tint") ∧
      ss'.otherAttrs = ["blend"] ∧
      (∃ vp', ss'.vp = some vp' ∧
        vp'.findFunction morphFunctionName = none ∧
        vp'.findFunction "fog"
          = (VirtualProgram.findFunction ⟨[("fog", "srcF", ShaderLoc.fragmentColoring)]⟩ "fog")) := by
  obtain ⟨ss', h1, h2, h3, h4, h5, h6, h7⟩ :=
    onUninstall_frame ElevationMorph.init
      ⟨some ⟨[⟨"tint", 5⟩], some ⟨[("fog", "srcF", ShaderLoc.fragmentColoring)]⟩, ["blend"]⟩⟩
      ⟨[⟨"tint", 5⟩], some ⟨[("fog", "srcF", ShaderLoc.fragmentColoring)]⟩, ["blend"]⟩ rfl
  obtain ⟨vp', hv1, hv2, hv3⟩ := h7 ⟨[("fog", "srcF", ShaderLoc.fragmentColoring)]⟩ rfl
  exact ⟨ss', h1, h2, h3, h4 "tint" (by decide) (by decide), h5,
    vp', hv1, hv2, hv3 "fog" (by decide)⟩

/-! ## C9: null engine and missing state safety -/

/-- C9. onInstall and onUninstall on a null engine are no ops; onUninstall
without a prior onInstall is safe: on an engine without a state set, or
with a state set holding no VirtualProgram and no morph uniforms, it
returns the state unchanged. -/
theorem onUninstall_safe_without_install (m : ElevationMorph) (ss : StateSet)
    (h1 : ss.vp = none)
    (h2 : ss.findUniform delayUniformName = none)
    (h3 : ss.findUniform durationUniformName = none) :
    m.onInstall none = none ∧
    m.onUninstall none = none ∧
    m.onUninstall (some ⟨none⟩) = some ⟨none⟩ ∧
    m.onUninstall (some ⟨some ss⟩) = some ⟨some ss⟩ := by
  refine ⟨rfl, rfl, rfl, ?_⟩
  obtain ⟨ul, vpo, attrs⟩ := ss
  cases h1
  simp only [StateSet.findUniform, Option.map_eq_none'] at h2 h3
  have hf1 : ul.filter (fun v => v.name != delayUniformName) = ul := by
    apply filter_eq_self_of_find?_none ul (fun v => v.name == delayUniformName) _ _ h2
    intro x hx
    simp [bne, hx]
  have hf2 : ul.filter (fun v => v.name != durationUniformName) = ul := by
    apply filter_eq_self_of_find?_none ul (fun v => v.name == durationUniformName) _ _ h3
    intro x hx
    simp [bne, hx]
  simp only [ElevationMorph.onUninstall, StateSet.removeUniform,
    ElevationMorph.durationUniform, ElevationMorph.delayUniform]
  rw [hf1, hf2]

/-- Witness for C9: a state set holding only a tint uniform and no
VirtualProgram passes through onUninstall unchanged, and the null engine
is a no op. -/
theorem onUninstall_safe_without_install_witness :
    ElevationMorph.init.onInstall none = none ∧
    ElevationMorph.init.onUninstall none = none ∧
    ElevationMorph.init.onUninstall (some ⟨none⟩) = some ⟨none⟩ ∧
    ElevationMorph.init.onUninstall (some ⟨some ⟨[⟨"tint", 5⟩], none, ["blend"]⟩⟩)
      = some ⟨some ⟨[⟨"tint", 5⟩], none, ["blend"]⟩⟩ :=
  onUninstall_safe_without_install ElevationMorph.init
    ⟨[⟨"tint", 5⟩], none, ["blend"]⟩ rfl (by decide) (by decide)

/-! ## C7 and C8: the effect API and its invariant -/

/-- C7. Construction and the setters act on the effect state only: every
operation other than onInstall and onUninstall leaves the engine state
untouched, setDelay changes only the delay member and the delay uniform,
setDuration changes only the duration member and the duration uniform,
and the constructor initialises the uniform values from the members. -/
theorem effect_ops_frame (w : ElevationMorph × Option Engine) (op : MorphOp)
    (m : ElevationMorph) (v : ℚ) :
    (applyWorldOp w op).2 = w.2 ∧
    (m.setDelay v)._duration = m._duration ∧
    (m.setDelay v)._durationUniformValue = m._durationUniformValue ∧
    (m.setDelay v)._delay = clampAbove v 0 ∧
    (m.setDelay v)._delayUniformValue = clampAbove v 0 ∧
    (m.setDuration v)._delay = m._delay ∧
    (m.setDuration v)._delayUniformValue = m._delayUniformValue ∧
    (m.setDuration v)._duration = clampAbove v 0 ∧
    (m.setDuration v)._durationUniformValue = clampAbove v 0 ∧
    ElevationMorph.init._delayUniformValue = ElevationMorph.init._delay ∧
    ElevationMorph.init._durationUniformValue = ElevationMorph.init._duration :=
  ⟨rfl, rfl, rfl, rfl, rfl, rfl, rfl, rfl, rfl, rfl, rfl⟩

/-- Each setter keeps the invariant. -/
lemma morphInvariant_applyOp (m : ElevationMorph) (op : MorphOp)
    (h : morphInvariant m) : morphInvariant (applyOp m op) := by
  cases op with
  | setDelayOp v =>
    exact ⟨le_max_right _ _, h.2.1, rfl, h.2.2.2⟩
  | setDurationOp v =>
    exact ⟨h.1, le_max_right _ _, h.2.2.1, rfl⟩

/-- The invariant survives any list of operations. -/
lemma morphInvariant_foldl (ops : List MorphOp) (m : ElevationMorph)
    (h : morphInvariant m) : morphInvariant (ops.foldl applyOp m) := by
  induction ops generalizing m with
  | nil => exact h
  | cons op rest ih => exact ih _ (morphInvariant_applyOp m op h)

/-- C8. The constructor sets delay 0 and duration 0.25, and after any
sequence of setDelay and setDuration calls with arbitrary arguments the
delay and duration members are non negative and the uniform values equal
the members. -/
theorem invariant_after_any_ops (ops : List MorphOp) :
    ElevationMorph.init._delay = 0 ∧
    ElevationMorph.init._duration = 25/100 ∧
    morphInvariant (ops.foldl applyOp ElevationMorph.init) :=
  ⟨rfl, rfl, morphInvariant_foldl ops ElevationMorph.init
    ⟨le_refl 0, by norm_num [ElevationMorph.init], rfl, rfl⟩⟩

end ElevationMorphSpec
